import Mathlib

/-!
Shallow embedding of `dnf/module/repo_module_dict.py` (class `RepoModuleDict`).

Two parallel data views occur in the source and are both embedded here:

* the *registry* view (`RepoModuleDict` as an `OrderedDict` of `RepoModule`
  entries, each holding per-stream version dictionaries and a persisted
  configuration) used by `find_module_version`;
* the *container* view (`self.base._moduleContainer`, a libdnf
  `ModulePackageContainer`) used by the batch operations `enable`,
  `disable`, `reset`, `install`, `upgrade` and `remove`.

Python dictionaries become association lists, Python sets become lists with
membership semantics (claims only inspect membership and emptiness),
exceptions become `Except`, and in-place mutation becomes explicit state
passing.
-/

set_option autoImplicit false

namespace DnfModule

/-- Association-list lookup keyed by strings; mirrors Python `dict[key]`
with `none` standing for a raised `KeyError`. -/
def assocFind {α : Type} : List (String × α) → String → Option α
  | [], _ => none
  | (k, v) :: rest, key => if k = key then some v else assocFind rest key

/-! ## Registry view: `RepoModule` / per-stream version dictionaries -/

/-- A catalog module-version record as seen through the registry
(`RepoModuleVersion` in dnf); only the fields read by the embedded code. -/
structure ModuleVersionR where
  name : String
  stream : String
  version : Int
deriving DecidableEq, Repr

/-- A per-stream `OrderedDict` of versions (`RepoModuleStream`). -/
structure RepoModuleStream where
  versions : List ModuleVersionR
deriving DecidableEq, Repr

/-- `repo_module_stream[version]`: dictionary access keyed by version;
`none` stands for `KeyError`. -/
def RepoModuleStream.lookupVersion (s : RepoModuleStream) (v : Int) : Option ModuleVersionR :=
  s.versions.find? (fun mv => mv.version = v)

/-- Modelled from the spec: `RepoModuleStream.latest()` lives in
`dnf/module/repo_module.py`, which is not under `src/`; §3 of the spec fixes
"each stream has many versions (ordered, latest = max version)". -/
def RepoModuleStream.latestVersion (s : RepoModuleStream) : Option ModuleVersionR :=
  s.versions.foldl
    (fun acc mv =>
      match acc with
      | none => some mv
      | some best => if mv.version > best.version then some mv else some best)
    none

/-- The persisted per-module configuration (`repo_module.conf`); the libdnf
option getters `state._get()` / `stream._get()` return plain strings. -/
structure ModuleConf where
  state : String
  stream : String
deriving DecidableEq, Repr

/-- A registry entry (`RepoModule`): stream dictionary plus persisted
configuration.  `defaultStream` models `defaults.peek_default_stream()`.
Modelled from the spec: `RepoModule` lives in `dnf/module/repo_module.py`,
not under `src/`; §6 fixes `getDefaultStream(name) -> stream|empty`, with
`none` standing for the empty answer. -/
structure RepoModule where
  streams : List (String × RepoModuleStream)
  conf : ModuleConf
  defaultStream : Option String
deriving DecidableEq, Repr

/-- The registry (`RepoModuleDict` as a dictionary). -/
abbrev Registry : Type := List (String × RepoModule)

/-- Modelled from the spec: `first_not_none` comes from `dnf.util`, which is
not under `src/`; it returns the first element of the list that is not
`None`. -/
def first_not_none : List (Option String) → Option String
  | [] => none
  | some x :: _ => some x
  | none :: rest => first_not_none rest

/-- Inner helper of `find_module_version`: the persisted stream counts only
when the persisted state is the string `"enabled"`. -/
def use_enabled_stream (repo_module : RepoModule) : Option String :=
  if repo_module.conf.state = "enabled" then some repo_module.conf.stream else none

/-- Inner helper of `find_module_version`: the catalog default stream. -/
def use_default_stream (repo_module : RepoModule) : Option String :=
  repo_module.defaultStream

/-- The stream-precedence computation inside `find_module_version`. -/
def resolveStream (repo_module : RepoModule) (stream : Option String) : Option String :=
  first_not_none [stream, use_enabled_stream repo_module, use_default_stream repo_module]

/-- The error raised by `find_module_version` when no stream is resolvable.
Its backing class (`NoStreamSpecifiedException` in
`dnf/module/exceptions.py`, not under `src/`) is modelled from the spec:
§7 lists `NoStreamSpecified` as its own error kind, not a `KeyError`, so the
`except KeyError` clause of the source does not catch it. -/
inductive FindError where
  | noStreamSpecified (name : String)
deriving DecidableEq, Repr

/-- `RepoModuleDict.find_module_version`.  Dictionary misses raise
`KeyError`, which the source catches and converts to `None`
(`Except.ok none` here); the `NoStreamSpecifiedException` raise escapes the
`except KeyError` clause and surfaces as `Except.error`. -/
def find_module_version (reg : Registry) (name : String) (stream : Option String)
    (version : Option Int) : Except FindError (Option ModuleVersionR) :=
  match assocFind reg name with
  | none => Except.ok none
  | some repo_module =>
    match resolveStream repo_module stream with
    | none => Except.error (FindError.noStreamSpecified name)
    | some s =>
      -- `if not stream:` in the source is Python truthiness: both `None`
      -- and the empty string fail it.
      if s = "" then Except.error (FindError.noStreamSpecified name)
      else
        match assocFind repo_module.streams s with
        | none => Except.ok none
        | some repo_module_stream =>
          match version with
          | some v =>
            -- `if version:` in the source is Python truthiness, so the
            -- integer 0 falls through to the latest-version branch.
            if v = 0 then Except.ok repo_module_stream.latestVersion
            else
              match repo_module_stream.lookupVersion v with
              | none => Except.ok none
              | some mv => Except.ok (some mv)
          | none => Except.ok repo_module_stream.latestVersion

/-! ## Container view: libdnf `ModulePackageContainer` and `ModulePackage`

Modelled from the spec: the container is an external collaborator (spec §6);
its operations are fixed by §4.4 (state machine) and §6 (interface
signatures).  Persisted per-module state is a total function from module
names, updated pointwise. -/

/-- The libdnf module states (`ModuleState_DEFAULT` …). -/
inductive ModuleState where
  | DEFAULT
  | ENABLED
  | DISABLED
  | UNKNOWN
deriving DecidableEq, Repr

/-- A module profile: a named set of package names. -/
structure ModProfile where
  name : String
  content : List String
deriving DecidableEq, Repr

/-- A catalog `ModulePackage`: the fields the embedded code reads. -/
structure ModulePackage where
  id : Nat
  name : String
  stream : String
  version : Int
  profiles : List ModProfile
  artifacts : List String
deriving DecidableEq, Repr

/-- `ModulePackage.getProfiles(name)`: the profiles of the version matching
the requested name (spec §4.5: "look it up on `latest_version`"). -/
def ModulePackage.getProfiles (m : ModulePackage) (profileName : String) : List ModProfile :=
  m.profiles.filter (fun p => p.name = profileName)

/-- The external `ModulePackageContainer` state (spec §6): persisted module
states, enabled/default streams, default/installed profiles, the set of
package names still required by installed modules, and the ids of active
module packages. -/
structure ModuleContainer where
  moduleState : String → ModuleState
  enabledStream : String → String
  defaultStream : String → String
  defaultProfiles : String → String → List String
  installedProfiles : String → List String
  installedPkgNames : List String
  activeIds : List Nat

def ModuleContainer.getModuleState (c : ModuleContainer) (name : String) : ModuleState :=
  c.moduleState name

def ModuleContainer.getEnabledStream (c : ModuleContainer) (name : String) : String :=
  c.enabledStream name

def ModuleContainer.getDefaultStream (c : ModuleContainer) (name : String) : String :=
  c.defaultStream name

def ModuleContainer.getDefaultProfiles (c : ModuleContainer) (name stream : String) :
    List String :=
  c.defaultProfiles name stream

def ModuleContainer.getInstalledProfiles (c : ModuleContainer) (name : String) : List String :=
  c.installedProfiles name

def ModuleContainer.getInstalledPkgNames (c : ModuleContainer) : List String :=
  c.installedPkgNames

def ModuleContainer.isModuleActive (c : ModuleContainer) (i : Nat) : Bool :=
  c.activeIds.contains i

/-- `container.enable(name, stream)`: record the enabled stream (spec §4.4;
§8 fixes that a later enable overrides the earlier stream). -/
def ModuleContainer.enable (c : ModuleContainer) (name stream : String) : ModuleContainer :=
  { c with
    moduleState := fun n => if n = name then ModuleState.ENABLED else c.moduleState n
    enabledStream := fun n => if n = name then stream else c.enabledStream n }

/-- `container.disable(name)`: unconditionally set state `DISABLED`
(spec §4.4). -/
def ModuleContainer.disable (c : ModuleContainer) (name : String) : ModuleContainer :=
  { c with
    moduleState := fun n => if n = name then ModuleState.DISABLED else c.moduleState n }

/-- `container.reset(name)`: set state `UNKNOWN` (spec §4.4). -/
def ModuleContainer.reset (c : ModuleContainer) (name : String) : ModuleContainer :=
  { c with
    moduleState := fun n => if n = name then ModuleState.UNKNOWN else c.moduleState n }

/-- `container.install(module, profileName)`: record the install marker for
the profile on the module's name (idempotent set insertion). -/
def ModuleContainer.installMark (c : ModuleContainer) (modName profileName : String) :
    ModuleContainer :=
  { c with
    installedProfiles := fun n =>
      if n = modName then
        (if profileName ∈ c.installedProfiles modName then c.installedProfiles modName
         else c.installedProfiles modName ++ [profileName])
      else c.installedProfiles n }

/-- `container.uninstall(module, profileName)`: clear the install marker. -/
def ModuleContainer.uninstallMark (c : ModuleContainer) (modName profileName : String) :
    ModuleContainer :=
  { c with
    installedProfiles := fun n =>
      if n = modName then (c.installedProfiles modName).filter (fun p => p ≠ profileName)
      else c.installedProfiles n }

/-! ## Grouping: the `moduleDict` built by `_create_module_dict_and_enable` -/

/-- Keys of a Python dict built by repeated `setdefault` insertion: each
value once, in first-occurrence order. -/
def firstOccAux (acc : List String) : List String → List String
  | [] => acc
  | s :: rest => if s ∈ acc then firstOccAux acc rest else firstOccAux (acc ++ [s]) rest

def firstOccurrences (l : List String) : List String :=
  firstOccAux [] l

/-- `moduleDict`: module name → (stream → list of module packages). -/
abbrev ModuleDict : Type := List (String × List (String × List ModulePackage))

/-- The nested-`setdefault` grouping at the top of
`_create_module_dict_and_enable`: group the match list by name, then by
stream, keys in first-occurrence order, values in input order. -/
def groupByName (module_list : List ModulePackage) : ModuleDict :=
  (firstOccurrences (module_list.map (fun m => m.name))).map (fun n =>
    (n, (firstOccurrences ((module_list.filter (fun m => m.name = n)).map
            (fun m => m.stream))).map (fun s =>
      (s, module_list.filter (fun m => m.name = n ∧ m.stream = s)))))

/-- `EnableMultipleStreamsException(moduleName)`. -/
structure EnableMultipleStreamsException where
  moduleName : String
deriving DecidableEq, Repr

/-- The per-name body of the loop in `_create_module_dict_and_enable`.
When the name's matches span several streams the winning stream is the
enabled stream (state `ENABLED`) or the catalog default (state `DEFAULT`);
the source then walks the sorted keys, enabling at the winning key and
deleting every other key, so the surviving stream dictionary is exactly the
winning group — embedded as a filter. -/
def processNameGroup (c : ModuleContainer) (enable : Bool) (moduleName : String)
    (streamDict : List (String × List ModulePackage)) :
    Except EnableMultipleStreamsException
      (ModuleContainer × List (String × List ModulePackage)) :=
  let moduleState := c.getModuleState moduleName
  if 1 < streamDict.length then
    if moduleState ≠ ModuleState.DEFAULT ∧ moduleState ≠ ModuleState.ENABLED then
      Except.error ⟨moduleName⟩
    else
      let stream :=
        if moduleState = ModuleState.ENABLED then c.getEnabledStream moduleName
        else c.getDefaultStream moduleName
      if stream ∉ streamDict.map Prod.fst then Except.error ⟨moduleName⟩
      else
        let c' := if enable then c.enable moduleName stream else c
        Except.ok (c', streamDict.filter (fun p => p.fst = stream))
  else
    let c' :=
      if enable then
        (streamDict.map Prod.fst).foldl (fun c k => c.enable moduleName k) c
      else c
    Except.ok (c', streamDict)

/-- `RepoModuleDict._create_module_dict_and_enable`: group the matches, then
run the per-name conflict resolution, threading the container. -/
def _create_module_dict_and_enable (c : ModuleContainer) (module_list : List ModulePackage)
    (enable : Bool) :
    Except EnableMultipleStreamsException (ModuleContainer × ModuleDict) :=
  (groupByName module_list).foldlM
    (fun acc g => do
      let (c', g') ← processNameGroup acc.fst enable g.fst g.snd
      Except.ok (c', acc.snd ++ [(g.fst, g')]))
    (c, ([] : ModuleDict))

/-! ## The batch operations of `RepoModuleDict` -/

/-- The parsed spec tuple (`hawkey` NSVCAP); the embedded operations only
read the name (for log messages) and the profile. -/
structure Nsvcap where
  name : String
  profile : Option String
deriving DecidableEq, Repr

/-- The ambient `base` object.  `getModulesFn` stands for `_get_modules`
(hawkey spec parsing plus `moduleContainer.query`, both external
collaborators, spec §4.1/§4.2): for a spec string it yields the matched
module packages — the empty list meaning no candidate matched — together
with the committed candidate's parsed tuple.  `sackHasName` stands for the
non-emptiness of `sack.query().filterm(nevra_strict=artifacts)` further
filtered by a package name (external solver/sack, spec §6).  The catalog
query does not depend on the mutable container state, so `getModulesFn` is
a fixed field while `container` is threaded through the operations. -/
structure Base where
  container : ModuleContainer
  getModulesFn : String → List ModulePackage × Nsvcap
  sackHasName : List String → String → Bool

/-- Outcome of `_resolve_specs_enable_update_sack`. -/
structure ResolveOutcome where
  no_match_specs : List String
  error_spec : List String
  module_dicts : List (String × Nsvcap × ModuleDict)
  container : ModuleContainer

/-- `RepoModuleDict._resolve_specs_enable_update_sack`: iterate the
deduplicated specs (`for spec in set(module_specs)`), collecting no-match
specs, converting `EnableMultipleStreamsException` (and `RuntimeError`)
into entries of the error list, and keeping each successful spec's module
dictionary.  The trailing `sack.filter_modules` call only touches the
external sack and is not represented. -/
def _resolve_specs_enable_update_sack (b : Base) (module_specs : List String) :
    ResolveOutcome :=
  module_specs.dedup.foldl
    (fun acc spec =>
      let (module_list, nsvcap) := b.getModulesFn spec
      if module_list = [] then
        { acc with no_match_specs := acc.no_match_specs ++ [spec] }
      else
        match _create_module_dict_and_enable acc.container module_list true with
        | Except.ok (c', module_dict) =>
          { acc with
            container := c'
            module_dicts := acc.module_dicts ++ [(spec, nsvcap, module_dict)] }
        | Except.error _ =>
          { acc with error_spec := acc.error_spec ++ [spec] })
    { no_match_specs := [], error_spec := [], module_dicts := [], container := b.container }

/-- `ModuleMarkingError(no_match_specs=…, error_specs=…)`; each argument
defaults to the empty list at the raise sites. -/
structure ModuleMarkingError where
  no_match_specs : List String
  error_specs : List String
deriving DecidableEq, Repr

def exceptIsOk {ε α : Type} : Except ε α → Bool
  | Except.ok _ => true
  | Except.error _ => false

/-- `RepoModuleDict.enable`: resolve and commit the enables, log ignored
profile qualifiers (no semantic effect), and raise `ModuleMarkingError`
only when some spec matched nothing — the collected `error_spec` list is
discarded. -/
def enable (b : Base) (module_specs : List String) : Except ModuleMarkingError Base :=
  let r := _resolve_specs_enable_update_sack b module_specs
  if r.no_match_specs ≠ [] then
    Except.error { no_match_specs := r.no_match_specs, error_specs := [] }
  else Except.ok { b with container := r.container }

/-- The per-name body of the loop in `_modules_reset_or_disable`: the two
`if to_state == …` statements of the source. -/
def disableStep (to_state : ModuleState) (c : ModuleContainer) (name : String) :
    ModuleContainer :=
  let c2 := if to_state = ModuleState.UNKNOWN then c.reset name else c
  if to_state = ModuleState.DISABLED then c2.disable name else c2

/-- `RepoModuleDict._modules_reset_or_disable`: for every spec that matches,
force each matched module name to the target state; return the no-match
list. -/
def _modules_reset_or_disable (b : Base) (module_specs : List String)
    (to_state : ModuleState) : List String × Base :=
  let step := fun (acc : List String × ModuleContainer) (spec : String) =>
    let (module_list, _nsvcap) := b.getModulesFn spec
    if module_list = [] then (acc.fst ++ [spec], acc.snd)
    else
      let module_names := firstOccurrences (module_list.map (fun m => m.name))
      (acc.fst, module_names.foldl (disableStep to_state) acc.snd)
  let r := module_specs.dedup.foldl step ([], b.container)
  (r.fst, { b with container := r.snd })

/-- `RepoModuleDict.disable`: raise `ModuleMarkingError` only when some
spec matched nothing. -/
def disable (b : Base) (module_specs : List String) : Except ModuleMarkingError Base :=
  let r := _modules_reset_or_disable b module_specs ModuleState.DISABLED
  if r.fst ≠ [] then Except.error { no_match_specs := r.fst, error_specs := [] }
  else Except.ok r.snd

/-- `RepoModuleDict.reset`: the source discards the no-match list returned
by `_modules_reset_or_disable` and always returns normally, so the embedded
result is always `Except.ok`. -/
def reset (b : Base) (module_specs : List String) : Except ModuleMarkingError Base :=
  Except.ok (_modules_reset_or_disable b module_specs ModuleState.UNKNOWN).snd

/-! ## `_get_latest` and the remove-path profile resolution -/

/-- The loop body of `_get_latest`: keep the candidate with the greater
version (ties keep the earlier entry). -/
def latestStep (latest module : ModulePackage) : ModulePackage :=
  if module.version > latest.version then module else latest

/-- `RepoModuleDict._get_latest`: scan for the entry with the greatest
version, `None` on the empty list. -/
def _get_latest (module_list : List ModulePackage) : Option ModulePackage :=
  match module_list with
  | [] => none
  | m :: rest => some (rest.foldl latestStep m)

/-- `RepoModuleDict._get_package_name_set_and_remove_profiles`: union the
package content of the eligible installed profiles, uninstalling each
matched profile when `remove` is set.  The source dereferences the latest
module unconditionally, so it presupposes a non-empty module list; the
`none` branch is unreachable from its call sites. -/
def _get_package_name_set_and_remove_profiles (c : ModuleContainer)
    (module_list : List ModulePackage) (nsvcapProfile : Option String) (remove : Bool) :
    List String × ModuleContainer :=
  match _get_latest module_list with
  | none => ([], c)
  | some latest_module =>
    let installed_profiles_strings := c.getInstalledProfiles latest_module.name
    if installed_profiles_strings = [] then ([], c)
    else
      match nsvcapProfile with
      | some reqProfile =>
        let profiles_set := latest_module.getProfiles reqProfile
        if profiles_set = [] then ([], c)
        else
          profiles_set.foldl
            (fun acc profile =>
              if profile.name ∈ installed_profiles_strings then
                ((acc.fst ++ profile.content),
                 if remove then acc.snd.uninstallMark latest_module.name profile.name
                 else acc.snd)
              else acc)
            ([], c)
      | none =>
        installed_profiles_strings.foldl
          (fun acc profile_string =>
            let c' := if remove then acc.snd.uninstallMark latest_module.name profile_string
                      else acc.snd
            ((latest_module.getProfiles profile_string).foldl
               (fun pns profile => pns ++ profile.content) acc.fst,
             c'))
          ([], c)

/-! ## `install` -/

/-- Accumulator for the main loop of `install`: collected error specs, the
`install_dict` mapping package names to the specs that requested them, the
artifact set, and the threaded container. -/
structure InstallAcc where
  error_specs : List String
  install_dict : List (String × List String)
  artifacts : List String
  container : ModuleContainer

/-- `install_dict.setdefault(pkg_name, set()).add(spec)`. -/
def addSpecFor (d : List (String × List String)) (pkg spec : String) :
    List (String × List String) :=
  match d with
  | [] => [(pkg, [spec])]
  | (p, specs) :: rest =>
    if p = pkg then (p, if spec ∈ specs then specs else specs ++ [spec]) :: rest
    else (p, specs) :: addSpecFor rest pkg spec

/-- Shared tail of the per-stream body of `install`: record install markers
for the resolved profiles, extend `install_dict` with their package
content, and add the artifacts of every active matched module. -/
def finishProfiles (acc : InstallAcc) (spec : String) (latest_module : ModulePackage)
    (install_module_list : List ModulePackage) (profiles : List ModProfile) : InstallAcc :=
  let c := profiles.foldl
    (fun c profile => c.installMark latest_module.name profile.name) acc.container
  let d := profiles.foldl
    (fun d profile => profile.content.foldl (fun d pkg => addSpecFor d pkg spec) d)
    acc.install_dict
  let arts := acc.artifacts ++ install_module_list.foldl (fun a m => a ++ m.artifacts) []
  { acc with container := c, install_dict := d, artifacts := arts }

/-- The body of `install`'s triple loop for one `(spec, name, stream)`
group: filter to active modules, resolve the requested or default profiles
(falling back to the literal name `"default"`, recording an install marker
for it when even that profile is missing), then hand over to
`finishProfiles`. -/
def installHandleStream (acc : InstallAcc) (spec : String) (nsvcap : Nsvcap)
    (name stream : String) (module_list : List ModulePackage) : InstallAcc :=
  let install_module_list :=
    module_list.filter (fun m => acc.container.isModuleActive m.id)
  if install_module_list = [] then
    { acc with error_specs := acc.error_specs ++ [spec] }
  else
    match _get_latest install_module_list with
    | none => acc  -- unreachable: the filtered list was just checked non-empty
    | some latest_module =>
      match nsvcap.profile with
      | some reqProfile =>
        let profiles := latest_module.getProfiles reqProfile
        if profiles = [] then
          { acc with error_specs := acc.error_specs ++ [spec] }
        else finishProfiles acc spec latest_module install_module_list profiles
      | none =>
        let profiles_strings := acc.container.getDefaultProfiles name stream
        let profiles_strings :=
          if profiles_strings = [] then ["default"] else profiles_strings
        -- `for profile in set(profiles_strings)`: iterate without duplicates
        let r := profiles_strings.dedup.foldl
          (fun (r : ModuleContainer × List ModProfile) profileName =>
            let module_profiles := latest_module.getProfiles profileName
            if module_profiles = [] then
              (if profiles_strings = ["default"] then
                 r.fst.installMark latest_module.name "default"
               else r.fst,
               r.snd)
            else (r.fst, r.snd ++ module_profiles))
          (acc.container, [])
        finishProfiles { acc with container := r.fst } spec latest_module
          install_module_list r.snd

/-- Outcome of the whole `install` computation before the final raise
decision. -/
structure InstallOutcome where
  no_match_specs : List String
  error_specs : List String
  container : ModuleContainer
  plan : List String

/-- The body of `RepoModuleDict.install` up to (and including) the
package-query loop: resolve and enable the specs, run the triple loop over
the module dictionaries, then check each collected package name against the
artifact-bounded sack query, collecting the goal's package-name plan. -/
def installCompute (b : Base) (module_specs : List String) : InstallOutcome :=
  let r := _resolve_specs_enable_update_sack b module_specs
  let acc := r.module_dicts.foldl
    (fun (acc : InstallAcc) sd =>
      let (spec, nsvcap, moduledict) := sd
      moduledict.foldl
        (fun (acc : InstallAcc) nd =>
          nd.snd.foldl
            (fun (acc : InstallAcc) st =>
              installHandleStream acc spec nsvcap nd.fst st.fst st.snd)
            acc)
        acc)
    { error_specs := r.error_spec, install_dict := [], artifacts := [],
      container := r.container }
  let final := acc.install_dict.foldl
    (fun (f : List String × List String) pd =>
      if b.sackHasName acc.artifacts pd.fst then (f.fst, f.snd ++ [pd.fst])
      else (f.fst ++ pd.snd, f.snd))
    (acc.error_specs, [])
  { no_match_specs := r.no_match_specs, error_specs := final.fst,
    container := acc.container, plan := final.snd }

/-- `RepoModuleDict.install`: raise one aggregate `ModuleMarkingError`
carrying both failure lists when either is non-empty. -/
def install (b : Base) (module_specs : List String) :
    Except ModuleMarkingError (Base × List String) :=
  let o := installCompute b module_specs
  if o.no_match_specs ≠ [] ∨ o.error_specs ≠ [] then
    Except.error { no_match_specs := o.no_match_specs, error_specs := o.error_specs }
  else Except.ok ({ b with container := o.container }, o.plan)

/-! ## `remove` -/

/-- The per-spec loop of `RepoModuleDict.remove`: resolve without
committing enables (`EnableMultipleStreamsException` is not caught here and
escapes), and union the remove-path package names with the uninstall side
effect. -/
def removeCompute (b : Base) (module_specs : List String) :
    Except EnableMultipleStreamsException (List String × List String × ModuleContainer) :=
  module_specs.dedup.foldlM
    (fun (acc : List String × List String × ModuleContainer) spec => do
      let (module_list, nsvcap) := b.getModulesFn spec
      if module_list = [] then
        Except.ok (acc.fst ++ [spec], acc.snd)
      else do
        let (c1, module_dict) ← _create_module_dict_and_enable acc.snd.snd module_list false
        let r := module_dict.foldl
          (fun (r : List String × ModuleContainer) nd =>
            nd.snd.foldl
              (fun (r : List String × ModuleContainer) st =>
                let p := _get_package_name_set_and_remove_profiles r.snd st.snd
                  nsvcap.profile true
                (r.fst ++ p.fst, p.snd))
              r)
          (([] : List String), c1)
        Except.ok (acc.fst, acc.snd.fst ++ r.fst, r.snd))
    (([] : List String), ([] : List String), b.container)

/-- `RepoModuleDict.remove`.  The second component of the result is the
package-name set handed to the installed-package removal query (`none` when
no removal is requested).  The source line
`remove_package_set.difference(keep_pkg_names)` calls the *pure*
`set.difference` and discards its result, so the removal set reaching the
query is unchanged; the embedded definition reproduces that by binding the
difference to an unused value. -/
def remove (b : Base) (module_specs : List String) :
    Except EnableMultipleStreamsException
      (List String × Option (List String) × ModuleContainer) := do
  let (no_match_specs, remove_package_set, c) ← removeCompute b module_specs
  if remove_package_set ≠ [] then
    let keep_pkg_names := c.getInstalledPkgNames
    let _ := remove_package_set.filter (fun p => p ∉ keep_pkg_names)
    if remove_package_set ≠ [] then
      Except.ok (no_match_specs, some remove_package_set, c)
    else Except.ok (no_match_specs, none, c)
  else Except.ok (no_match_specs, none, c)

/-! ## Helper lemmas -/

theorem foldl_const {α β : Type} (step : β → α → β) (init : β) :
    ∀ l : List α, (∀ x ∈ l, step init x = init) → l.foldl step init = init := by
  intro l
  induction l with
  | nil => intro _; rfl
  | cons a t ih =>
    intro h
    simp only [List.foldl_cons, h a (by simp)]
    exact ih (fun x hx => h x (by simp [hx]))

theorem mem_firstOccAux (x : String) :
    ∀ (l acc : List String), x ∈ firstOccAux acc l ↔ x ∈ acc ∨ x ∈ l := by
  intro l
  induction l with
  | nil => intro acc; simp [firstOccAux]
  | cons s t ih =>
    intro acc
    by_cases hs : s ∈ acc
    · simp only [firstOccAux, if_pos hs, ih]
      constructor
      · rintro (h | h)
        · exact Or.inl h
        · exact Or.inr (List.mem_cons_of_mem _ h)
      · rintro (h | h)
        · exact Or.inl h
        · rcases List.mem_cons.mp h with rfl | h
          · exact Or.inl hs
          · exact Or.inr h
    · simp only [firstOccAux, if_neg hs, ih]
      rw [List.mem_append, List.mem_singleton, List.mem_cons]
      tauto

theorem mem_firstOccurrences (x : String) (l : List String) :
    x ∈ firstOccurrences l ↔ x ∈ l := by
  rw [firstOccurrences, mem_firstOccAux]
  simp

theorem nodup_firstOccAux :
    ∀ (l acc : List String), acc.Nodup → (firstOccAux acc l).Nodup := by
  intro l
  induction l with
  | nil => intro acc h; exact h
  | cons s t ih =>
    intro acc h
    by_cases hs : s ∈ acc
    · simpa [firstOccAux, if_pos hs] using ih acc h
    · rw [firstOccAux, if_neg hs]
      exact ih _ (List.nodup_append.mpr ⟨h, List.nodup_singleton s,
        fun a ha hb => hs ((List.mem_singleton.mp hb) ▸ ha)⟩)

theorem nodup_firstOccurrences (l : List String) : (firstOccurrences l).Nodup :=
  nodup_firstOccAux l [] List.nodup_nil

theorem filter_eq_singleton_of_nodup (a : String) :
    ∀ l : List String, l.Nodup → a ∈ l → l.filter (fun x => x = a) = [a] := by
  intro l
  induction l with
  | nil => intro _ h; cases h
  | cons b t ih =>
    intro hnd hmem
    rcases List.mem_cons.mp hmem with rfl | hmem
    · have hnot : a ∉ t := (List.nodup_cons.mp hnd).1
      have : t.filter (fun x => x = a) = [] := by
        rw [List.filter_eq_nil_iff]
        intro x hx
        simp only [decide_eq_true_eq]
        intro h; exact hnot (h ▸ hx)
      simp [List.filter_cons, this]
    · have hba : ¬(b = a) := by
        rintro rfl; exact (List.nodup_cons.mp hnd).1 hmem
      simp only [List.filter_cons, decide_eq_true_eq]
      rw [if_neg hba]
      exact ih (List.nodup_cons.mp hnd).2 hmem

theorem firstOccAux_all_eq (a : String) :
    ∀ (l acc : List String), (∀ x ∈ l, x = a) →
      firstOccAux acc l = if l = [] then acc else (if a ∈ acc then acc else acc ++ [a]) := by
  intro l
  induction l with
  | nil => intro acc _; simp [firstOccAux]
  | cons s t ih =>
    intro acc h
    have hsa : s = a := h s (by simp)
    subst hsa
    by_cases hs : s ∈ acc
    · rw [firstOccAux, if_pos hs, ih acc (fun x hx => h x (by simp [hx]))]
      by_cases ht : t = [] <;> simp [ht, hs]
    · rw [firstOccAux, if_neg hs,
        ih (acc ++ [s]) (fun x hx => h x (by simp [hx]))]
      by_cases ht : t = [] <;> simp [ht, hs]

theorem firstOccurrences_all_eq (a : String) (l : List String)
    (h : ∀ x ∈ l, x = a) (hne : l ≠ []) : firstOccurrences l = [a] := by
  rw [firstOccurrences, firstOccAux_all_eq a l [] h, if_neg hne]
  simp

theorem latestStep_le_left (latest module : ModulePackage) :
    latest.version ≤ (latestStep latest module).version := by
  unfold latestStep
  split <;> omega

theorem latestStep_le_right (latest module : ModulePackage) :
    module.version ≤ (latestStep latest module).version := by
  unfold latestStep
  split <;> omega

theorem latestFold_mem :
    ∀ (rest : List ModulePackage) (m : ModulePackage),
      rest.foldl latestStep m = m ∨ rest.foldl latestStep m ∈ rest := by
  intro rest
  induction rest with
  | nil => intro m; left; rfl
  | cons r t ih =>
    intro m
    simp only [List.foldl_cons]
    rcases ih (latestStep m r) with h | h
    · rw [h]
      unfold latestStep
      split
      · right; exact List.mem_cons_self ..
      · left; rfl
    · right; exact List.mem_cons_of_mem _ h

theorem latestFold_ge :
    ∀ (rest : List ModulePackage) (m : ModulePackage),
      ∀ x, (x = m ∨ x ∈ rest) → x.version ≤ (rest.foldl latestStep m).version := by
  intro rest
  induction rest with
  | nil =>
    intro m x hx
    rcases hx with rfl | hx
    · exact le_refl _
    · cases hx
  | cons r t ih =>
    intro m x hx
    simp only [List.foldl_cons]
    rcases hx with rfl | hx
    · exact le_trans (latestStep_le_left x r) (ih (latestStep x r) _ (Or.inl rfl))
    · rcases List.mem_cons.mp hx with rfl | hx
      · exact le_trans (latestStep_le_right m x) (ih (latestStep m x) _ (Or.inl rfl))
      · exact ih (latestStep m r) x (Or.inr hx)

theorem get_latest_mem {l : List ModulePackage} {m : ModulePackage}
    (h : _get_latest l = some m) : m ∈ l := by
  cases l with
  | nil => cases h
  | cons a t =>
    rw [_get_latest] at h
    have hm := Option.some.inj h
    rcases latestFold_mem t a with h' | h'
    · rw [← hm, h']; exact List.mem_cons_self ..
    · rw [← hm]; exact List.mem_cons_of_mem _ h'

theorem get_latest_max {l : List ModulePackage} {m : ModulePackage}
    (h : _get_latest l = some m) : ∀ x ∈ l, x.version ≤ m.version := by
  cases l with
  | nil => cases h
  | cons a t =>
    rw [_get_latest] at h
    have hm := Option.some.inj h
    intro x hx
    rw [← hm]
    rcases List.mem_cons.mp hx with h1 | h1
    · exact latestFold_ge t a x (Or.inl h1)
    · exact latestFold_ge t a x (Or.inr h1)

theorem get_latest_isSome {l : List ModulePackage} (h : l ≠ []) :
    (_get_latest l).isSome := by
  cases l with
  | nil => exact absurd rfl h
  | cons a t => simp [_get_latest]

/-! ## Claim theorems -/

/-- Claim C9: `_get_latest` returns `none` on the empty list, and on every
non-empty list it returns an element of the list whose version is the
maximum version occurring in the list. -/
theorem C9_get_latest_max :
    _get_latest [] = none ∧
    ∀ l : List ModulePackage, l ≠ [] →
      ∃ m, _get_latest l = some m ∧ m ∈ l ∧ ∀ x ∈ l, x.version ≤ m.version := by
  refine ⟨rfl, fun l hne => ?_⟩
  cases hl : _get_latest l with
  | none =>
    have := get_latest_isSome hne
    rw [hl] at this
    cases this
  | some m => exact ⟨m, rfl, get_latest_mem hl, get_latest_max hl⟩

def c9pkg (i : Nat) (v : Int) : ModulePackage :=
  { id := i, name := "m", stream := "s", version := v, profiles := [], artifacts := [] }

/-- Claim C9 witness: on versions `[1, 3, 2]` the version-3 entry is
returned. -/
theorem C9_witness :
    [c9pkg 0 1, c9pkg 1 3, c9pkg 2 2] ≠ ([] : List ModulePackage) ∧
    ∃ m, _get_latest [c9pkg 0 1, c9pkg 1 3, c9pkg 2 2] = some m ∧
      m ∈ [c9pkg 0 1, c9pkg 1 3, c9pkg 2 2] ∧
      ∀ x ∈ [c9pkg 0 1, c9pkg 1 3, c9pkg 2 2], x.version ≤ m.version :=
  ⟨by decide, C9_get_latest_max.2 [c9pkg 0 1, c9pkg 1 3, c9pkg 2 2] (by decide)⟩

/-- Claim C10: `find_module_version` treats the version argument `0` as
Python-falsy — the result is identical to not specifying a version at all,
so the latest version of the resolved stream is returned and a stored
version numbered 0 can never be addressed explicitly. -/
theorem C10_version_zero_unaddressable :
    ∀ (reg : Registry) (name : String) (stream : Option String),
      find_module_version reg name stream (some 0) =
        find_module_version reg name stream none := by
  intro reg name stream
  unfold find_module_version
  cases assocFind reg name with
  | none => rfl
  | some rm =>
    cases resolveStream rm stream with
    | none => rfl
    | some s =>
      by_cases hs : s = ""
      · simp [hs]
      · simp only [if_neg hs]
        cases assocFind rm.streams s with
        | none => rfl
        | some rms => simp

def regC3 : Registry :=
  [("m", { streams := [], conf := { state := "unknown", stream := "" },
           defaultStream := none })]

/-- Claim C3 counterexample: for a known module whose persisted state is not
enabled and which has no default stream, `find_module_version` does not
return an absent result — the `NoStreamSpecifiedException` raise escapes the
`except KeyError` clause. -/
theorem C3_counterexample :
    find_module_version regC3 "m" none none =
        Except.error (FindError.noStreamSpecified "m") ∧
    find_module_version regC3 "m" none none ≠ Except.ok none := by
  constructor
  · rfl
  · intro h
    rw [show find_module_version regC3 "m" none none =
          Except.error (FindError.noStreamSpecified "m") from rfl] at h
    cases h

/-- Claim C3 (amended): `find_module_version` returns `none` for dictionary
lookup misses — unknown module name, resolved stream absent from the
module's stream dictionary, or an explicitly given non-zero version absent
from the stream — but when no stream is resolvable (explicit argument,
enabled stream and default stream all absent or empty) it raises
`NoStreamSpecifiedException` instead of returning an absent result. -/
theorem C3_lookup_miss_behavior (reg : Registry) (name : String)
    (stream : Option String) (version : Option Int) :
    (assocFind reg name = none →
       find_module_version reg name stream version = Except.ok none) ∧
    (∀ rm s, assocFind reg name = some rm → resolveStream rm stream = some s →
       s ≠ "" → assocFind rm.streams s = none →
       find_module_version reg name stream version = Except.ok none) ∧
    (∀ rm s rms v, assocFind reg name = some rm → resolveStream rm stream = some s →
       s ≠ "" → assocFind rm.streams s = some rms → version = some v → v ≠ 0 →
       rms.lookupVersion v = none →
       find_module_version reg name stream version = Except.ok none) ∧
    (∀ rm, assocFind reg name = some rm →
       (resolveStream rm stream = none ∨ resolveStream rm stream = some "") →
       find_module_version reg name stream version =
         Except.error (FindError.noStreamSpecified name)) := by
  refine ⟨?_, ?_, ?_, ?_⟩
  · intro h
    simp [find_module_version, h]
  · intro rm s hrm hs hne hmiss
    simp [find_module_version, hrm, hs, hne, hmiss]
  · intro rm s rms v hrm hs hne hfound hv hv0 hmiss
    simp [find_module_version, hrm, hs, hne, hfound, hv, hv0, hmiss]
  · intro rm hrm hbad
    rcases hbad with h | h <;> simp [find_module_version, hrm, h]

/-- Claim C3 witness (for the amended claim): an unknown module name yields
`Except.ok none`. -/
theorem C3_witness :
    assocFind ([] : Registry) "nosuch" = none ∧
    find_module_version [] "nosuch" none none = Except.ok none :=
  ⟨rfl, (C3_lookup_miss_behavior [] "nosuch" none none).1 rfl⟩

/-- Claim C4: the stream used by `find_module_version` follows strict
precedence — a non-empty explicit stream always wins; with no explicit
stream the persisted stream wins exactly when the persisted state is
`"enabled"`; otherwise the catalog default stream is used.  In particular,
with persisted state enabled on stream `S` and no explicit stream, the
returned version is taken from stream `S`'s dictionary regardless of the
default stream. -/
theorem C4_stream_precedence (reg : Registry) (name : String) (rm : RepoModule)
    (hreg : assocFind reg name = some rm) :
    (∀ e, e ≠ "" → resolveStream rm (some e) = some e) ∧
    (rm.conf.state = "enabled" → resolveStream rm none = some rm.conf.stream) ∧
    (rm.conf.state ≠ "enabled" → resolveStream rm none = rm.defaultStream) ∧
    (∀ S rms, rm.conf.state = "enabled" → rm.conf.stream = S → S ≠ "" →
       assocFind rm.streams S = some rms →
       find_module_version reg name none none = Except.ok rms.latestVersion) := by
  refine ⟨fun e _ => rfl, ?_, ?_, ?_⟩
  · intro h
    simp [resolveStream, first_not_none, use_enabled_stream, h]
  · intro h
    simp only [resolveStream, first_not_none, use_enabled_stream, if_neg h,
      use_default_stream]
    cases rm.defaultStream <;> rfl
  · intro S rms hstate hstream hSne hlook
    have hres : resolveStream rm none = some S := by
      simp [resolveStream, first_not_none, use_enabled_stream, hstate, hstream]
    simp [find_module_version, hreg, hres, hSne, hlook]

def rmC4 : RepoModule :=
  { streams := [("s1", { versions := [{ name := "m", stream := "s1", version := 5 }] }),
                ("s2", { versions := [{ name := "m", stream := "s2", version := 7 }] })],
    conf := { state := "enabled", stream := "s2" },
    defaultStream := some "s1" }

/-- Claim C4 witness: with persisted state enabled on `"s2"` and catalog
default `"s1"`, the lookup without an explicit stream returns the latest
version of `"s2"`. -/
theorem C4_witness :
    assocFind [("m", rmC4)] "m" = some rmC4 ∧
    rmC4.conf.state = "enabled" ∧
    find_module_version [("m", rmC4)] "m" none none =
      Except.ok (some { name := "m", stream := "s2", version := 7 }) :=
  ⟨rfl, rfl,
    (C4_stream_precedence [("m", rmC4)] "m" rmC4 rfl).2.2.2 "s2"
      { versions := [{ name := "m", stream := "s2", version := 7 }] }
      rfl rfl (by decide) rfl⟩

/-- Claim C7: when a specifically requested profile is not in the module's
installed-profile record, the remove-path profile resolution returns the
empty package-name set and leaves the container — in particular the
installed-profile record — unchanged, whether or not removal was
requested. -/
theorem C7_requested_profile_not_installed (c : ModuleContainer)
    (ml : List ModulePackage) (p : String) (latest : ModulePackage) (remove : Bool)
    (hl : _get_latest ml = some latest)
    (hnot : p ∉ c.getInstalledProfiles latest.name) :
    _get_package_name_set_and_remove_profiles c ml (some p) remove = ([], c) := by
  by_cases hinst : c.getInstalledProfiles latest.name = []
  · simp [_get_package_name_set_and_remove_profiles, hl, hinst]
  · by_cases hps : latest.getProfiles p = []
    · simp [_get_package_name_set_and_remove_profiles, hl, hinst, hps]
    · simp only [_get_package_name_set_and_remove_profiles, hl, if_neg hinst,
        if_neg hps]
      apply foldl_const
      intro x hx
      have hxp : x.name = p := by
        have hx' : x ∈ latest.profiles ∧ x.name = p := by
          simpa [ModulePackage.getProfiles, List.mem_filter] using hx
        exact hx'.2
      rw [if_neg (by rw [hxp]; exact hnot)]

def cC7 : ModuleContainer :=
  { moduleState := fun _ => ModuleState.ENABLED
    enabledStream := fun _ => "s"
    defaultStream := fun _ => "s"
    defaultProfiles := fun _ _ => []
    installedProfiles := fun n => if n = "m" then ["other"] else []
    installedPkgNames := []
    activeIds := [] }

def mpC7 : ModulePackage :=
  { id := 0, name := "m", stream := "s", version := 1,
    profiles := [{ name := "p", content := ["pkg1"] }], artifacts := [] }

/-- Claim C7 witness: requesting profile `"p"` while only `"other"` is
installed yields the empty set and the untouched container. -/
theorem C7_witness :
    (_get_latest [mpC7] = some mpC7 ∧ "p" ∉ cC7.getInstalledProfiles mpC7.name) ∧
    _get_package_name_set_and_remove_profiles cC7 [mpC7] (some "p") true = ([], cC7) :=
  ⟨⟨rfl, by decide⟩,
    C7_requested_profile_not_installed cC7 [mpC7] "p" mpC7 true rfl (by decide)⟩

/-- Replace the container of a base (explicit form of the in-place mutation
of `self.base._moduleContainer`). -/
def withContainer (b : Base) (c : ModuleContainer) : Base :=
  { b with container := c }

theorem mrd_single_eval (b : Base) (sp : String) (ml : List ModulePackage) (nv : Nsvcap)
    (hget : b.getModulesFn sp = (ml, nv)) (hne : ml ≠ []) (ts : ModuleState) :
    _modules_reset_or_disable b [sp] ts =
      ([], withContainer b
        ((firstOccurrences (ml.map (fun m => m.name))).foldl (disableStep ts)
          b.container)) := by
  unfold _modules_reset_or_disable withContainer
  simp [hget, hne]

theorem disable_single_eval (b : Base) (sp : String) (ml : List ModulePackage) (nv : Nsvcap)
    (hget : b.getModulesFn sp = (ml, nv)) (hne : ml ≠ []) :
    disable b [sp] = Except.ok (withContainer b
      ((firstOccurrences (ml.map (fun m => m.name))).foldl
        (disableStep ModuleState.DISABLED) b.container)) := by
  unfold disable
  rw [mrd_single_eval b sp ml nv hget hne ModuleState.DISABLED]
  simp

theorem foldl_disableStep_moduleState (names : List String) :
    ∀ (c : ModuleContainer) (q : String),
      ((names.foldl (disableStep ModuleState.DISABLED) c).moduleState q) =
        if q ∈ names then ModuleState.DISABLED else c.moduleState q := by
  induction names with
  | nil => intro c q; simp
  | cons n t ih =>
    intro c q
    rw [List.foldl_cons, ih]
    by_cases hq : q ∈ t
    · simp [hq]
    · by_cases hqn : q = n
      · simp [hq, hqn, disableStep, ModuleContainer.disable]
      · simp [hq, hqn, disableStep, ModuleContainer.disable]

/-- Claim C8: disabling is idempotent — for a spec that matches the
catalog, `disable` succeeds and forces every matched module name to state
`DISABLED` regardless of the prior state, and a second identical call
succeeds again and leaves the state `DISABLED`. -/
theorem C8_disable_idempotent (b : Base) (sp : String) (ml : List ModulePackage)
    (nv : Nsvcap) (hget : b.getModulesFn sp = (ml, nv)) (hne : ml ≠ []) :
    ∃ b1 b2, disable b [sp] = Except.ok b1 ∧ disable b1 [sp] = Except.ok b2 ∧
      ∀ m ∈ ml, b1.container.getModuleState m.name = ModuleState.DISABLED ∧
        b2.container.getModuleState m.name = ModuleState.DISABLED := by
  refine ⟨_, _, disable_single_eval b sp ml nv hget hne,
    disable_single_eval _ sp ml nv hget hne, ?_⟩
  intro m hm
  have hmem : m.name ∈ firstOccurrences (ml.map (fun m => m.name)) := by
    rw [mem_firstOccurrences]
    exact List.mem_map.mpr ⟨m, hm, rfl⟩
  constructor
  · show ((firstOccurrences (ml.map (fun m => m.name))).foldl
        (disableStep ModuleState.DISABLED) b.container).moduleState m.name =
      ModuleState.DISABLED
    rw [foldl_disableStep_moduleState]
    simp [hmem]
  · show ((firstOccurrences (ml.map (fun m => m.name))).foldl
        (disableStep ModuleState.DISABLED)
        ((firstOccurrences (ml.map (fun m => m.name))).foldl
          (disableStep ModuleState.DISABLED) b.container)).moduleState m.name =
      ModuleState.DISABLED
    rw [foldl_disableStep_moduleState]
    simp [hmem]

def cC8 : ModuleContainer :=
  { moduleState := fun _ => ModuleState.ENABLED
    enabledStream := fun _ => "s"
    defaultStream := fun _ => "s"
    defaultProfiles := fun _ _ => []
    installedProfiles := fun _ => []
    installedPkgNames := []
    activeIds := [] }

def mpC8 : ModulePackage :=
  { id := 0, name := "m", stream := "s", version := 1, profiles := [], artifacts := [] }

def bC8 : Base :=
  { container := cC8
    getModulesFn := fun sp =>
      if sp = "m" then ([mpC8], { name := "m", profile := none })
      else ([], { name := "", profile := none })
    sackHasName := fun _ _ => false }

/-- Claim C8 witness: disabling the matched module `"m"` twice succeeds
both times and leaves it `DISABLED`. -/
theorem C8_witness :
    (bC8.getModulesFn "m" = ([mpC8], { name := "m", profile := none }) ∧
      [mpC8] ≠ ([] : List ModulePackage)) ∧
    ∃ b1 b2, disable bC8 ["m"] = Except.ok b1 ∧ disable b1 ["m"] = Except.ok b2 ∧
      ∀ m ∈ [mpC8], b1.container.getModuleState m.name = ModuleState.DISABLED ∧
        b2.container.getModuleState m.name = ModuleState.DISABLED :=
  ⟨⟨rfl, by decide⟩,
    C8_disable_idempotent bC8 "m" [mpC8] { name := "m", profile := none } rfl (by decide)⟩

/-- Claim C2 counterexample: `reset` discards the no-match list returned by
`_modules_reset_or_disable` — a spec that matched nothing still lets `reset`
return normally, with no aggregate error raised. -/
theorem C2_counterexample :
    (bC8.getModulesFn "nomatch").fst = [] ∧
    exceptIsOk (reset bC8 ["nomatch"]) = true :=
  ⟨rfl, rfl⟩

/-- Claim C2 (amended): `install` raises exactly one aggregate
`ModuleMarkingError` carrying both the no-match and the error spec list iff
either list is non-empty; `enable` and `disable` raise only when some spec
matched nothing, and the error they raise carries the no-match list with an
empty error-spec list (`enable` discards its collected error specs);
`reset` never raises, even when specs fail. -/
theorem C2_raise_policy (b : Base) (specs : List String) :
    ((∃ e, install b specs = Except.error e) ↔
       ((installCompute b specs).no_match_specs ≠ [] ∨
        (installCompute b specs).error_specs ≠ [])) ∧
    (∀ e, install b specs = Except.error e →
       e = { no_match_specs := (installCompute b specs).no_match_specs,
             error_specs := (installCompute b specs).error_specs }) ∧
    ((∃ e, enable b specs = Except.error e) ↔
       (_resolve_specs_enable_update_sack b specs).no_match_specs ≠ []) ∧
    (∀ e, enable b specs = Except.error e →
       e = { no_match_specs := (_resolve_specs_enable_update_sack b specs).no_match_specs,
             error_specs := [] }) ∧
    ((∃ e, disable b specs = Except.error e) ↔
       (_modules_reset_or_disable b specs ModuleState.DISABLED).fst ≠ []) ∧
    (∀ e, disable b specs = Except.error e →
       e = { no_match_specs := (_modules_reset_or_disable b specs ModuleState.DISABLED).fst,
             error_specs := [] }) ∧
    exceptIsOk (reset b specs) = true := by
  refine ⟨?_, ?_, ?_, ?_, ?_, ?_, rfl⟩
  · by_cases hc : (installCompute b specs).no_match_specs ≠ [] ∨
        (installCompute b specs).error_specs ≠ []
    · simp only [install, if_pos hc]
      simp [hc]
    · simp only [install, if_neg hc]
      simp [hc]
  · intro e he
    by_cases hc : (installCompute b specs).no_match_specs ≠ [] ∨
        (installCompute b specs).error_specs ≠ []
    · simp only [install, if_pos hc] at he
      exact (Except.error.inj he).symm
    · simp only [install, if_neg hc] at he
      cases he
  · by_cases hc : (_resolve_specs_enable_update_sack b specs).no_match_specs ≠ []
    · simp only [enable, if_pos hc]
      simp [hc]
    · simp only [enable, if_neg hc]
      simp [hc]
  · intro e he
    by_cases hc : (_resolve_specs_enable_update_sack b specs).no_match_specs ≠ []
    · simp only [enable, if_pos hc] at he
      exact (Except.error.inj he).symm
    · simp only [enable, if_neg hc] at he
      cases he
  · by_cases hc : (_modules_reset_or_disable b specs ModuleState.DISABLED).fst ≠ []
    · simp only [disable, if_pos hc]
      simp [hc]
    · simp only [disable, if_neg hc]
      simp [hc]
  · intro e he
    by_cases hc : (_modules_reset_or_disable b specs ModuleState.DISABLED).fst ≠ []
    · simp only [disable, if_pos hc] at he
      exact (Except.error.inj he).symm
    · simp only [disable, if_neg hc] at he
      cases he

/-- Claim C2 witness: the raise policy instantiated at a concrete base and
batch. -/
theorem C2_witness :
    exceptIsOk (reset bC8 ["nomatch", "m"]) = true :=
  (C2_raise_policy bC8 ["nomatch", "m"]).2.2.2.2.2.2

def cC1 : ModuleContainer :=
  { moduleState := fun _ => ModuleState.ENABLED
    enabledStream := fun _ => "s"
    defaultStream := fun _ => "s"
    defaultProfiles := fun _ _ => []
    installedProfiles := fun n => if n = "mod" then ["p"] else []
    installedPkgNames := ["shared-lib"]
    activeIds := [0] }

def mpC1 : ModulePackage :=
  { id := 0, name := "mod", stream := "s", version := 1,
    profiles := [{ name := "p", content := ["shared-lib"] }], artifacts := [] }

def bC1 : Base :=
  { container := cC1
    getModulesFn := fun sp =>
      if sp = "mod" then ([mpC1], { name := "mod", profile := none })
      else ([], { name := "", profile := none })
    sackHasName := fun _ _ => true }

/-- Claim C1: evaluation of `remove` at the failing input.  Module `"mod"`'s
installed profile `"p"` contains `"shared-lib"`, and `"shared-lib"` is also
in `getInstalledPkgNames` (still required by another kept module); because
`remove_package_set.difference(keep_pkg_names)` discards its result, the
kept name still reaches the final removal query. -/
theorem C1_kept_package_reaches_removal_query :
    Except.map (fun r => (r.fst, r.snd.fst)) (remove bC1 ["mod"]) =
      Except.ok ([], some ["shared-lib"]) ∧
    "shared-lib" ∈ cC1.getInstalledPkgNames := by
  constructor
  · rfl
  · simp [cC1, ModuleContainer.getInstalledPkgNames]

theorem map_fst_pairing {β : Type} (g : String → β) :
    ∀ l : List String, (l.map (fun s => (s, g s))).map Prod.fst = l := by
  intro l
  induction l with
  | nil => rfl
  | cons a t ih => simp only [List.map_cons, ih]

theorem groupByName_all_name (ml : List ModulePackage) (n : String)
    (hne : ml ≠ []) (hn : ∀ m ∈ ml, m.name = n) :
    groupByName ml =
      [(n, (firstOccurrences (ml.map (fun m => m.stream))).map
          (fun s => (s, ml.filter (fun m => m.stream = s))))] := by
  have hmapne : ml.map (fun m => m.name) ≠ [] := by
    cases ml with
    | nil => exact absurd rfl hne
    | cons a t => simp
  have h1 : firstOccurrences (ml.map (fun m => m.name)) = [n] :=
    firstOccurrences_all_eq n _
      (fun x hx => by
        obtain ⟨m, hm, hxm⟩ := List.mem_map.mp hx
        rw [← hxm]; exact hn m hm)
      hmapne
  have h2 : ml.filter (fun m => m.name = n) = ml :=
    List.filter_eq_self.mpr (fun m hm => by simp [hn m hm])
  have h3 : ∀ s : String,
      ml.filter (fun m => m.name = n ∧ m.stream = s) =
        ml.filter (fun m => m.stream = s) :=
    fun s => List.filter_congr (fun m hm => by simp [hn m hm])
  unfold groupByName
  rw [h1]
  simp only [List.map_cons, List.map_nil, h2, h3]

theorem cmdae_single_error (c : ModuleContainer) (en : Bool) (n : String)
    (sd : List (String × List ModulePackage)) (ml : List ModulePackage)
    (hg : groupByName ml = [(n, sd)]) (e : EnableMultipleStreamsException)
    (hp : processNameGroup c en n sd = Except.error e) :
    _create_module_dict_and_enable c ml en = Except.error e := by
  unfold _create_module_dict_and_enable
  rw [hg]
  simp [List.foldlM, hp, Bind.bind, Except.bind]

theorem cmdae_single_ok (c : ModuleContainer) (en : Bool) (n : String)
    (sd : List (String × List ModulePackage)) (ml : List ModulePackage)
    (hg : groupByName ml = [(n, sd)]) (c' : ModuleContainer)
    (g' : List (String × List ModulePackage))
    (hp : processNameGroup c en n sd = Except.ok (c', g')) :
    _create_module_dict_and_enable c ml en = Except.ok (c', [(n, g')]) := by
  unfold _create_module_dict_and_enable
  rw [hg]
  simp [List.foldlM, hp, Bind.bind, Except.bind, Pure.pure, Except.pure]

/-- Claim C5: when a single spec's matches span more than one stream for a
module name, `_create_module_dict_and_enable` raises
`EnableMultipleStreamsException` exactly when the persisted state is
neither `DEFAULT` nor `ENABLED`, or the winning stream (enabled stream when
`ENABLED`, catalog default otherwise) is not among the matched streams;
when it does not raise, the non-winning stream groups are discarded and
exactly one stream group — the winning one — survives. -/
theorem C5_multi_stream_conflict (c : ModuleContainer) (en : Bool) (n : String)
    (ml : List ModulePackage) (w : String)
    (hn : ∀ m ∈ ml, m.name = n) (hne : ml ≠ [])
    (hmulti : 1 < (firstOccurrences (ml.map (fun m => m.stream))).length)
    (hw : w = if c.getModuleState n = ModuleState.ENABLED then c.getEnabledStream n
              else c.getDefaultStream n) :
    (_create_module_dict_and_enable c ml en =
        Except.error { moduleName := n } ↔
      ((c.getModuleState n ≠ ModuleState.DEFAULT ∧
        c.getModuleState n ≠ ModuleState.ENABLED) ∨
       w ∉ ml.map (fun m => m.stream))) ∧
    (∀ c' md, _create_module_dict_and_enable c ml en = Except.ok (c', md) →
      md = [(n, [(w, ml.filter (fun m => m.stream = w))])]) := by
  set ks := firstOccurrences (ml.map (fun m => m.stream)) with hks
  set sd := ks.map (fun s => (s, ml.filter (fun m => m.stream = s))) with hsd
  have hg : groupByName ml = [(n, sd)] := groupByName_all_name ml n hne hn
  have hlen : 1 < sd.length := by
    rw [hsd, List.length_map]
    exact hmulti
  have hfst : sd.map Prod.fst = ks := by
    rw [hsd]
    exact map_fst_pairing _ ks
  by_cases hstate : c.getModuleState n ≠ ModuleState.DEFAULT ∧
      c.getModuleState n ≠ ModuleState.ENABLED
  · have hp : processNameGroup c en n sd = Except.error { moduleName := n } := by
      simp only [processNameGroup]
      rw [if_pos hlen, if_pos hstate]
    have hcd := cmdae_single_error c en n sd ml hg _ hp
    constructor
    · rw [hcd]
      simp [hstate]
    · intro c' md h
      rw [hcd] at h
      cases h
  · by_cases hmem : w ∈ ml.map (fun m => m.stream)
    · have hmemk : w ∈ sd.map Prod.fst := by
        rw [hfst, hks]
        exact (mem_firstOccurrences ..).mpr hmem
      have hnodup : ks.Nodup := by
        rw [hks]; exact nodup_firstOccurrences _
      have hfilter : sd.filter (fun p => p.fst = w) =
          [(w, ml.filter (fun m => m.stream = w))] := by
        rw [hsd, List.filter_map]
        have hcomp : ((fun p : String × List ModulePackage => decide (p.fst = w)) ∘
            (fun s => (s, ml.filter (fun m => m.stream = s)))) =
            fun s => decide (s = w) := by
          funext s; simp
        rw [hcomp, filter_eq_singleton_of_nodup w ks hnodup
          (by rw [hks]; exact (mem_firstOccurrences ..).mpr hmem)]
        simp
      have hp : processNameGroup c en n sd =
          Except.ok ((if en then c.enable n w else c),
            [(w, ml.filter (fun m => m.stream = w))]) := by
        simp only [processNameGroup]
        rw [if_pos hlen, if_neg hstate, ← hw,
          if_neg (not_not_intro hmemk), hfilter]
      have hcd := cmdae_single_ok c en n sd ml hg _ _ hp
      constructor
      · constructor
        · intro h
          rw [hcd] at h
          cases h
        · intro h
          exfalso
          rcases h with h | h
          · exact hstate h
          · exact h hmem
      · intro c' md h
        rw [hcd] at h
        have h' := Except.ok.inj h
        have := congrArg Prod.snd h'
        simpa using this.symm
    · have hp : processNameGroup c en n sd = Except.error { moduleName := n } := by
        simp only [processNameGroup]
        rw [if_pos hlen, if_neg hstate, ← hw,
          if_pos (by rw [hfst, hks]
                     exact fun hk => hmem ((mem_firstOccurrences ..).mp hk))]
      have hcd := cmdae_single_error c en n sd ml hg _ hp
      constructor
      · rw [hcd]
        simp [hmem]
      · intro c' md h
        rw [hcd] at h
        cases h

def cC5 : ModuleContainer :=
  { moduleState := fun _ => ModuleState.DEFAULT
    enabledStream := fun _ => ""
    defaultStream := fun _ => "a"
    defaultProfiles := fun _ _ => []
    installedProfiles := fun _ => []
    installedPkgNames := []
    activeIds := [] }

def mpC5a : ModulePackage :=
  { id := 0, name := "m", stream := "a", version := 1, profiles := [], artifacts := [] }

def mpC5b : ModulePackage :=
  { id := 1, name := "m", stream := "b", version := 1, profiles := [], artifacts := [] }

/-- Claim C5 witness: streams `{a, b}` with state `DEFAULT` and default
stream `a` do not raise, and only the `a` group survives. -/
theorem C5_witness :
    ((∀ m ∈ [mpC5a, mpC5b], m.name = "m") ∧
      [mpC5a, mpC5b] ≠ ([] : List ModulePackage) ∧
      1 < (firstOccurrences ([mpC5a, mpC5b].map (fun m => m.stream))).length ∧
      "a" = (if cC5.getModuleState "m" = ModuleState.ENABLED
             then cC5.getEnabledStream "m" else cC5.getDefaultStream "m")) ∧
    ((_create_module_dict_and_enable cC5 [mpC5a, mpC5b] true =
        Except.error { moduleName := "m" } ↔
      ((cC5.getModuleState "m" ≠ ModuleState.DEFAULT ∧
        cC5.getModuleState "m" ≠ ModuleState.ENABLED) ∨
       "a" ∉ [mpC5a, mpC5b].map (fun m => m.stream))) ∧
    (∀ c' md, _create_module_dict_and_enable cC5 [mpC5a, mpC5b] true =
        Except.ok (c', md) →
      md = [("m", [("a", [mpC5a, mpC5b].filter (fun m => m.stream = "a"))])])) :=
  ⟨⟨by decide, by decide, by decide, by decide⟩,
    C5_multi_stream_conflict cC5 true "m" [mpC5a, mpC5b] "a"
      (by decide) (by decide) (by decide) (by decide)⟩

theorem resolve_single_ok (b : Base) (sp : String) (ml : List ModulePackage)
    (nv : Nsvcap) (c1 : ModuleContainer) (md : ModuleDict)
    (hget : b.getModulesFn sp = (ml, nv)) (hne : ml ≠ [])
    (hc : _create_module_dict_and_enable b.container ml true = Except.ok (c1, md)) :
    _resolve_specs_enable_update_sack b [sp] =
      { no_match_specs := [], error_spec := [], module_dicts := [(sp, nv, md)],
        container := c1 } := by
  unfold _resolve_specs_enable_update_sack
  simp [hget, hne, hc]

theorem installMark_self_mem (c : ModuleContainer) (n p : String) :
    p ∈ (c.installMark n p).getInstalledProfiles n := by
  simp only [ModuleContainer.installMark, ModuleContainer.getInstalledProfiles]
  by_cases hp : p ∈ c.installedProfiles n <;> simp [hp]

/-- Claim C6: installing a spec with no explicit profile, for a module with
no catalog-declared default profiles, uses the literal `"default"` as the
only candidate profile; when even that profile is absent from the latest
version's profile list, an install marker for `"default"` is still recorded
on the module, although no package content resolves (the install plan is
empty and the batch succeeds). -/
theorem C6_default_profile_fallback (b : Base) (sp : String)
    (ml : List ModulePackage) (nv : Nsvcap) (n s : String)
    (hget : b.getModulesFn sp = (ml, nv)) (hne : ml ≠ [])
    (hn : ∀ m ∈ ml, m.name = n) (hstream : ∀ m ∈ ml, m.stream = s)
    (hprofile : nv.profile = none)
    (hdefaults : b.container.defaultProfiles n s = [])
    (hactive : ∀ m ∈ ml, b.container.isModuleActive m.id = true)
    (hnodef : ∀ m ∈ ml, m.getProfiles "default" = []) :
    ∃ b', install b [sp] = Except.ok (b', []) ∧
      "default" ∈ b'.container.getInstalledProfiles n := by
  obtain ⟨latest, hlatest⟩ := Option.isSome_iff_exists.mp (get_latest_isSome hne)
  have hlatmem := get_latest_mem hlatest
  have hlatname : latest.name = n := hn latest hlatmem
  have hlatprof : latest.getProfiles "default" = [] := hnodef latest hlatmem
  have hmapne : ml.map (fun m => m.stream) ≠ [] := by
    cases ml with
    | nil => exact absurd rfl hne
    | cons a t => simp
  have hfo : firstOccurrences (ml.map (fun m => m.stream)) = [s] :=
    firstOccurrences_all_eq s _
      (fun x hx => by
        obtain ⟨m, hm, hxm⟩ := List.mem_map.mp hx
        rw [← hxm]; exact hstream m hm)
      hmapne
  have hfilter_s : ml.filter (fun m => m.stream = s) = ml :=
    List.filter_eq_self.mpr (fun m hm => by simp [hstream m hm])
  have hg : groupByName ml = [(n, [(s, ml)])] := by
    rw [groupByName_all_name ml n hne hn, hfo]
    simp only [List.map_cons, List.map_nil, hfilter_s]
  have hp : processNameGroup b.container true n [(s, ml)] =
      Except.ok (b.container.enable n s, [(s, ml)]) := by
    simp [processNameGroup]
  have hc := cmdae_single_ok b.container true n [(s, ml)] ml hg _ _ hp
  have hr := resolve_single_ok b sp ml nv _ _ hget hne hc
  have hactive' : ml.filter
      (fun m => (b.container.enable n s).isModuleActive m.id) = ml := by
    apply List.filter_eq_self.mpr
    intro m hm
    simpa [ModuleContainer.enable, ModuleContainer.isModuleActive] using hactive m hm
  have hdef' : (b.container.enable n s).getDefaultProfiles n s = [] := by
    simpa [ModuleContainer.getDefaultProfiles, ModuleContainer.enable] using hdefaults
  have hdedup : (["default"] : List String).dedup = ["default"] := by decide
  have hic : installCompute b [sp] =
      { no_match_specs := [], error_specs := [],
        container := (b.container.enable n s).installMark latest.name "default",
        plan := [] } := by
    unfold installCompute
    rw [hr]
    simp only [List.foldl_cons, List.foldl_nil]
    unfold installHandleStream
    simp only [hactive', hlatest, hprofile]
    rw [if_neg hne]
    simp [hdef', hdedup, finishProfiles, hlatprof]
  refine ⟨withContainer b
    ((b.container.enable n s).installMark latest.name "default"), ?_, ?_⟩
  · unfold install
    rw [hic]
    simp [withContainer]
  · simp only [withContainer]
    rw [hlatname]
    exact installMark_self_mem _ n "default"

def cC6 : ModuleContainer :=
  { moduleState := fun _ => ModuleState.DEFAULT
    enabledStream := fun _ => ""
    defaultStream := fun _ => ""
    defaultProfiles := fun _ _ => []
    installedProfiles := fun _ => []
    installedPkgNames := []
    activeIds := [7] }

def mpC6 : ModulePackage :=
  { id := 7, name := "nodejs", stream := "ten", version := 1,
    profiles := [{ name := "devel", content := ["npm"] }], artifacts := [] }

def bC6 : Base :=
  { container := cC6
    getModulesFn := fun sp =>
      if sp = "nodejs" then ([mpC6], { name := "nodejs", profile := none })
      else ([], { name := "", profile := none })
    sackHasName := fun _ _ => true }

/-- Claim C6 witness: the module declares no default profiles and has no
`"default"` profile, yet installing it records an install marker for
`"default"` with an empty plan. -/
theorem C6_witness :
    (bC6.getModulesFn "nodejs" = ([mpC6], { name := "nodejs", profile := none }) ∧
      [mpC6] ≠ ([] : List ModulePackage) ∧
      (∀ m ∈ [mpC6], m.name = "nodejs") ∧
      (∀ m ∈ [mpC6], m.stream = "ten") ∧
      ({ name := "nodejs", profile := none } : Nsvcap).profile = none ∧
      cC6.defaultProfiles "nodejs" "ten" = [] ∧
      (∀ m ∈ [mpC6], cC6.isModuleActive m.id = true) ∧
      (∀ m ∈ [mpC6], m.getProfiles "default" = [])) ∧
    ∃ b', install bC6 ["nodejs"] = Except.ok (b', []) ∧
      "default" ∈ b'.container.getInstalledProfiles "nodejs" :=
  ⟨⟨rfl, by decide, by decide, by decide, rfl, rfl, by decide, by decide⟩,
    C6_default_profile_fallback bC6 "nodejs" [mpC6]
      { name := "nodejs", profile := none } "nodejs" "ten"
      rfl (by decide) (by decide) (by decide) rfl rfl (by decide) (by decide)⟩

end DnfModule
